import Mathlib

set_option linter.unusedVariables false

/-!
Shallow embedding of the tech-watch-bot ingestion pipeline
(src/scripts/tech-watch-bot: main.py, src/analyzer.py, src/scraper.py,
src/db.py, src/rss.py), together with theorems about its behaviour.

Modelling conventions:
* Python strings are Lean `String`s; article content is `List Char`
  (Python slices strings by code point, so `content[:50000]` is `List.take`).
* Wall-clock time is `ℚ` (seconds since the epoch).
* The external collaborators (trafilatura, the Algolia comment API, the
  Gemini call itself, and the Supabase row store) are opaque oracles
  supplied as functions inside a `World` record, exactly at the
  boundaries the code calls them.
* A Python function that can return `None` is modelled with `Option`.
-/

/-! ### Rate limiting (src/analyzer.py, lines 11-17 and 65-74) -/

/-- Constant `REQUESTS_PER_MINUTE = 10` from src/analyzer.py line 12. -/
def REQUESTS_PER_MINUTE : ℚ := 10

/-- Constant `MIN_DELAY_BETWEEN_REQUESTS = 60 / REQUESTS_PER_MINUTE`
(src/analyzer.py line 13). -/
def MIN_DELAY_BETWEEN_REQUESTS : ℚ := 60 / REQUESTS_PER_MINUTE

/-- Model of `_wait_for_rate_limit` (src/analyzer.py lines 65-74).
`last` is the shared `_last_request_time`, `now` is `time.time()` on entry.
The function sleeps `MIN_DELAY_BETWEEN_REQUESTS - (now - last)` seconds when
the elapsed time is below the floor, and the returned value is the time at
which the wait ends: that instant is both the moment the external call is
issued and the value written back into `_last_request_time`. -/
def wait_for_rate_limit (last now : ℚ) : ℚ :=
  if now - last < MIN_DELAY_BETWEEN_REQUESTS then
    now + (MIN_DELAY_BETWEEN_REQUESTS - (now - last))
  else now

/-- The sequence of call instants produced by a sequence of external calls:
`arrivals` lists the times at which the code reaches `_wait_for_rate_limit`
for each call, and each entry of the result is the instant the corresponding
external request is issued (the shared timestamp threading is the global
`_last_request_time` of src/analyzer.py line 17). -/
def callTimes (last : ℚ) : List ℚ → List ℚ
  | [] => []
  | a :: rest => wait_for_rate_limit last a :: callTimes (wait_for_rate_limit last a) rest

/-! ### Retry loop (src/analyzer.py, lines 77-114) -/

/-- Outcome of one `model.generate_content` attempt, as the failure classes
the code distinguishes (google_exceptions.ResourceExhausted,
google_exceptions.TooManyRequests, any other exception, or success). -/
inductive GeminiOutcome
  | success (text : String)
  | resourceExhausted
  | tooManyRequests
  | otherError
deriving DecidableEq

/-- Result of `_call_gemini_with_retry`: either the response text or the
exception that propagates out of the loop. `raisedRuntime` is the
`RuntimeError("Max retries exceeded")` after the loop, which the loop
structure makes unreachable. -/
inductive RetryOutcome
  | ok (text : String)
  | raisedResourceExhausted
  | raisedTooManyRequests
  | raisedOther
  | raisedRuntime
deriving DecidableEq

/-- Constant `MAX_RETRIES = 3` from src/analyzer.py line 14. -/
def MAX_RETRIES : Nat := 3

/-- Constant `INITIAL_BACKOFF = 10` from src/analyzer.py line 15. -/
def INITIAL_BACKOFF : Nat := 10

/-- One iteration of the `for attempt in range(MAX_RETRIES)` loop of
`_call_gemini_with_retry` (src/analyzer.py lines 79-111), with `fuel` the
number of loop iterations left. `generate a` is the outcome of the external
call on attempt `a`. Returns the final outcome, the number of attempts
actually made, and the list of backoff sleeps (`INITIAL_BACKOFF * 2 **
attempt`) actually performed, in order. On a retryable failure the code
sleeps only when `attempt < MAX_RETRIES - 1` and otherwise re-raises;
any other exception is re-raised immediately. -/
def retryFrom (generate : Nat → GeminiOutcome) : Nat → Nat → RetryOutcome × Nat × List Nat
  | _, 0 => (RetryOutcome.raisedRuntime, 0, [])
  | attempt, fuel + 1 =>
    match generate attempt with
    | GeminiOutcome.success t => (RetryOutcome.ok t, 1, [])
    | GeminiOutcome.resourceExhausted =>
      if attempt < MAX_RETRIES - 1 then
        let r := retryFrom generate (attempt + 1) fuel
        (r.1, r.2.1 + 1, (INITIAL_BACKOFF * 2 ^ attempt) :: r.2.2)
      else (RetryOutcome.raisedResourceExhausted, 1, [])
    | GeminiOutcome.tooManyRequests =>
      if attempt < MAX_RETRIES - 1 then
        let r := retryFrom generate (attempt + 1) fuel
        (r.1, r.2.1 + 1, (INITIAL_BACKOFF * 2 ^ attempt) :: r.2.2)
      else (RetryOutcome.raisedTooManyRequests, 1, [])
    | GeminiOutcome.otherError => (RetryOutcome.raisedOther, 1, [])

/-- Model of `_call_gemini_with_retry` (src/analyzer.py lines 77-114):
run the loop from attempt 0 with `MAX_RETRIES` iterations available. -/
def callGeminiWithRetry (generate : Nat → GeminiOutcome) : RetryOutcome × Nat × List Nat :=
  retryFrom generate 0 MAX_RETRIES

/-! ### Analyzer (src/analyzer.py, lines 117-164) -/

/-- A Hacker News comment as produced by `fetch_hn_comments`
(src/scraper.py lines 32-88). -/
structure HnComment where
  author : String
  text : String
deriving DecidableEq

/-- The placeholder string returned by `analyze_article` when
`GEMINI_API_KEY` is not set (src/analyzer.py line 127). -/
def geminiErrorMsg : String := "Error: No GEMINI_API_KEY configured."

/-- Model of `analyze_article` (src/analyzer.py lines 117-164).
`apiKey` is `os.getenv("GEMINI_API_KEY")`; `generate` is the per-attempt
outcome of `model.generate_content` for this article's prompt (the prompt
text itself — SYSTEM_PROMPT, title, `article_content[:15000]`, rendered
comments — is opaque to every property here, so the external call is keyed
by the attempt number only, matching the spec's treatment of the LLM call
as an opaque collaborator). Without a key the function returns the error
placeholder string (a truthy value, not the failure sentinel). Every
exception path of the surrounding try block (quota exhausted, rate limited
or any other error propagated by the retry loop) returns `None`, modelled
as `none`. -/
def analyze_article (apiKey : Option String) (generate : Nat → GeminiOutcome)
    (article_content : List Char) (comments : List HnComment) (title : String) :
    Option String :=
  match apiKey with
  | none => some geminiErrorMsg
  | some _ =>
    match (callGeminiWithRetry generate).1 with
    | RetryOutcome.ok t => some t
    | _ => none

/-! ### Tag extraction (src/analyzer.py, lines 34-62)

`extract_tags_from_analysis` searches with two regexes,
`Tags?\s*:\s*\[([^\]]+)\]` and then `Tags?\s*:\s*([^\n]+)`, both with
`re.IGNORECASE`; the matcher below implements exactly the search and
backtracking behaviour of those two patterns over `List Char`. -/

/-- Python regex `\s` on the ASCII range: space, tab, newline, carriage
return, form feed, vertical tab. -/
def pyIsSpace (c : Char) : Bool :=
  c.val == 32 || c.val == 9 || c.val == 10 || c.val == 13 || c.val == 12 || c.val == 11

/-- The quote characters stripped by `strip('"\'')`: `"` (34) and the
apostrophe (39). -/
def isQuoteChar (c : Char) : Bool := c.val == 34 || c.val == 39

/-- The newline character, i.e. the one character class `[^\n]` excludes. -/
def nlChar : Char := Char.ofNat 10

/-- Strip characters satisfying `p` from both ends, like Python
`str.strip`. -/
def stripEnds (p : Char → Bool) (l : List Char) : List Char :=
  ((l.dropWhile p).reverse.dropWhile p).reverse

/-- Python `str.split(',')` on `List Char`: splitting the empty string
yields `[""]`, and separators are not merged. -/
def splitOnComma : List Char → List (List Char)
  | [] => [[]]
  | c :: rest =>
    if c = ',' then [] :: splitOnComma rest
    else
      match splitOnComma rest with
      | [] => [[c]]
      | h :: t => (c :: h) :: t

/-- Continuation of pattern 1 after the (case-insensitive) `Tag`/`Tags`
label: `\s*:\s*\[([^\]]+)\]`. The greedy `\s*` runs need no backtracking
because `:` and `[` are not whitespace; the group is the maximal nonempty
run of non-`]` characters after `[`, and a closing `]` must follow. -/
def matchAfterLabel1 (l : List Char) : Option (List Char) :=
  match l.dropWhile pyIsSpace with
  | ':' :: rest =>
    match rest.dropWhile pyIsSpace with
    | '[' :: r3 =>
      if (r3.takeWhile (fun c => !(c = ']'))).isEmpty then none
      else if (r3.dropWhile (fun c => !(c = ']'))).isEmpty then none
      else some (r3.takeWhile (fun c => !(c = ']')))
    | _ => none
  | _ => none

/-- Continuation of pattern 2 after the label: `\s*:\s*([^\n]+)`. The
greedy `\s*` after `:` first swallows the whole whitespace run `ws`; if a
non-whitespace character follows, the group is the remainder of that line.
Otherwise the regex engine backtracks `\s*` from the right, and the first
consumable position is the last non-newline character of `ws` (everything
after it in `ws` is newline), giving a one-character group; if `ws` is all
newlines the whole pattern fails at this start position. -/
def matchAfterLabel2 (l : List Char) : Option (List Char) :=
  match l.dropWhile pyIsSpace with
  | ':' :: rest =>
    if (rest.dropWhile pyIsSpace).isEmpty then
      match ((rest.takeWhile pyIsSpace).reverse.dropWhile (fun c => c = nlChar)).head? with
      | some c => some [c]
      | none => none
    else some ((rest.dropWhile pyIsSpace).takeWhile (fun c => !(c = nlChar)))
  | _ => none

/-- Try to match `Tags?` case-insensitively at the current position and,
on success, run the continuation `after` on the remainder. The optional
`s` is greedy: the variant that consumes it is tried first, falling back
to the variant that does not, exactly as `s?` backtracks. -/
def tryPatAt (after : List Char → Option (List Char)) : List Char → Option (List Char)
  | t :: a :: g :: rest =>
    if t.toLower = 't' ∧ a.toLower = 'a' ∧ g.toLower = 'g' then
      match rest with
      | s :: rest2 =>
        if s.toLower = 's' then
          match after rest2 with
          | some grp => some grp
          | none => after rest
        else after rest
      | [] => after []
    else none
  | _ => none

/-- `re.search`: try the pattern at each start position, leftmost first. -/
def searchPat (after : List Char → Option (List Char)) : List Char → Option (List Char)
  | [] => none
  | c :: rest =>
    match tryPatAt after (c :: rest) with
    | some grp => some grp
    | none => searchPat after rest

/-- The comprehension pipeline of src/analyzer.py lines 54-56 applied to a
captured group: split on commas, strip whitespace then quotes from each
token, drop empty and single-character tokens, cap at 5. -/
def processTags (tags_str : List Char) : List (List Char) :=
  ((splitOnComma tags_str).map (fun t => stripEnds isQuoteChar (stripEnds pyIsSpace t))).filter
      (fun t => !t.isEmpty && decide (1 < t.length)) |>.take 5

/-- The second iteration of the pattern loop: pattern
`Tags?\s*:\s*([^\n]+)`, whose (possibly empty) processed tag list is the
final answer because the loop ends after it. -/
def extractSecondPattern (analysis : List Char) : List (List Char) :=
  match searchPat matchAfterLabel2 analysis with
  | some grp => processTags grp
  | none => []

/-- Model of `extract_tags_from_analysis` (src/analyzer.py lines 34-62):
empty input short-circuits to `[]`; pattern 1 wins only when its processed
tag list is nonempty, otherwise the loop falls through to pattern 2, and a
fruitless loop returns `[]`. -/
def extract_tags_from_analysis (analysis : List Char) : List (List Char) :=
  if analysis.isEmpty then []
  else
    match searchPat matchAfterLabel1 analysis with
    | some grp =>
      if (processTags grp).isEmpty then extractSecondPattern analysis
      else processTags grp
    | none => extractSecondPattern analysis

/-! ### Database layer (src/db.py) -/

/-- The row dict built by `save_article` (src/db.py lines 68-79) and handed
to `supabase.table("tech_watch_articles").insert(...)`. The `collected_at`
timestamp is threaded in as a parameter (`datetime.now(timezone.utc)`). -/
structure ArticleRow where
  user_id : String
  title : String
  url : String
  source : String
  content : Option (List Char)
  summary : Option String
  tags : List String
  published_at : Option String
  collected_at : String
  read : Bool
deriving DecidableEq

/-- The expression `content[:50000] if content else None` (src/db.py
line 73): Python truthiness sends both `None` and the empty string to
`None`, and slicing truncates to 50000 code points. -/
def truncated_content (content : Option (List Char)) : Option (List Char) :=
  match content with
  | some c => if c.isEmpty then none else some (c.take 50000)
  | none => none

/-- The `data` dict of `save_article` (src/db.py lines 68-79): note the
hard-coded `"tags": []` and that `comments_url` is not stored. -/
def articleRowOf (user_id title url : String) (content : Option (List Char))
    (analysis : Option String) (published_at : Option String) (collected_at : String) :
    ArticleRow :=
  { user_id := user_id, title := title, url := url, source := "hacker_news",
    content := truncated_content content, summary := analysis, tags := [],
    published_at := published_at, collected_at := collected_at, read := false }

/-- Model of `save_article` (src/db.py lines 53-94). The store insert is
the oracle `insertArticle`; it returns the new row id on success and
`none` when the insert raises or returns no data, in which case
`save_article` logs and returns `None`. `comments_url` is accepted (as in
the Python signature) but unused. -/
def save_article (insertArticle : ArticleRow → Option String)
    (user_id title url comments_url : String) (content : Option (List Char))
    (analysis : Option String) (published_at : Option String) (collected_at : String) :
    Option String :=
  insertArticle (articleRowOf user_id title url content analysis published_at collected_at)

/-- A row of the `tech_watch_digests` table. -/
structure Digest where
  id : String
  user_id : String
  period_start : String
  period_end : String
  summary : String
  article_ids : List String
  key_topics : List String
deriving DecidableEq

/-- `period_start = f"{date}T00:00:00Z"` (src/db.py line 110). -/
def period_start_of (date : String) : String := date ++ "T00:00:00Z"

/-- `period_end = f"{date}T23:59:59Z"` (src/db.py line 111). -/
def period_end_of (date : String) : String := date ++ "T23:59:59Z"

/-- Lexicographic `≤` on strings, as the store's range filters compare
ISO timestamps. -/
def strLe (a b : String) : Bool := a == b || decide (a < b)

/-- The existence query of `save_digest` (src/db.py lines 114-119): rows
with this `user_id` whose `period_start` is `≥` the computed start and
whose `period_end` is `≤` the computed end. -/
def digestMatches (user_id period_start period_end : String) (d : Digest) : Bool :=
  d.user_id == user_id && strLe period_start d.period_start && strLe d.period_end period_end

/-- Model of `save_digest` (src/db.py lines 97-155) as a transformation of
the digest table. If a matching digest exists, its `article_ids` become
`list(set(existing + new))` — modelled by `List.dedup` of the
concatenation, a canonical duplicate-free representative of the Python
set, about which only membership and `Nodup` are ever asserted — and
`summary`/`key_topics` are replaced; otherwise a fresh row is inserted
with the computed bounds (`newId` stands for the store-assigned id).
The Bool mirrors the Python return value on the non-exception paths. -/
def save_digest (digests : List Digest) (newId user_id date summary : String)
    (article_ids : List String) (key_topics : Option (List String)) :
    List Digest × Bool :=
  match digests.find? (digestMatches user_id (period_start_of date) (period_end_of date)) with
  | some d0 =>
    (digests.map (fun d =>
      if d.id = d0.id then
        { d with summary := summary,
                 article_ids := (d0.article_ids ++ article_ids).dedup,
                 key_topics := key_topics.getD [] }
      else d), true)
  | none =>
    (digests ++ [{ id := newId, user_id := user_id,
                   period_start := period_start_of date, period_end := period_end_of date,
                   summary := summary, article_ids := article_ids,
                   key_topics := key_topics.getD [] }], true)

/-- Two invocations of `save_digest` in the same run against the same
table, with possibly different summaries and id lists. -/
def save_digest_twice (digests : List Digest) (newId1 newId2 user_id date s1 s2 : String)
    (ids1 ids2 : List String) (kt1 kt2 : Option (List String)) : List Digest :=
  (save_digest (save_digest digests newId1 user_id date s1 ids1 kt1).1
    newId2 user_id date s2 ids2 kt2).1

/-! ### Digest summary and orchestrator (src/db.py lines 158-171, main.py) -/

/-- An entry of the `processed_articles` list accumulated by `main`
(main.py lines 100-105). `analysis` is `Option` because main.py appends
the raw return of `analyze_article`, which can be `None`. -/
structure ProcessedArticle where
  title : String
  url : String
  comments_url : String
  analysis : Option String
deriving DecidableEq

/-- Model of `build_digest_summary` (src/db.py lines 158-171). The Python
`"\n".join(lines)` raises `TypeError` if any `article['analysis']` is
`None`; that exception is modelled as `none` (it is uncaught in main.py,
so it aborts the run). -/
def build_digest_summary (articles : List ProcessedArticle) : Option String :=
  if articles.all (fun a => a.analysis.isSome) then
    some (String.intercalate "\n" (articles.flatMap (fun a =>
      ["\n## [" ++ a.title ++ "](" ++ a.url ++ ")",
       "*Discussion: [Hacker News](" ++ a.comments_url ++ ")*\n",
       a.analysis.getD "",
       "\n---"])))
  else none

/-- A feed entry as normalised by `fetch_hn_feed` (src/rss.py lines 22-31);
`published` is `Option` because main.py reads it with `.get('published')`. -/
structure FeedArticle where
  id : String
  title : String
  link : String
  comments_link : String
  published : Option String
deriving DecidableEq

/-- The arguments of the single `save_digest` invocation made by `main`
(main.py lines 110-116). -/
structure DigestCall where
  date : String
  summary : String
  article_ids : List String
deriving DecidableEq

/-- The external collaborators of one run, as oracles at exactly the
boundaries the code calls: `clean_html_content` (src/scraper.py, `None`
on extraction failure), `fetch_hn_comments` (src/scraper.py, `[]` on
failure), `generate` (outcome of `model.generate_content` per article
title and attempt), and the article-table insert used by `save_article`. -/
structure World where
  clean_html_content : String → Option (List Char)
  fetch_hn_comments : String → List HnComment
  generate : String → Nat → GeminiOutcome
  insertArticle : ArticleRow → Option String

/-- The environment variables main.py and its imports read. -/
structure Config where
  gemini_api_key : Option String
  supabase_url : Option String
  supabase_service_role_key : Option String
  user_id_env : Option String

/-- Everything a run of `main` consumes: configuration, oracles, the
already-processed URLs returned by `get_processed_urls`, the feed
returned by `fetch_hn_feed`, today's date string and the
`collected_at` timestamp. -/
structure RunInput where
  cfg : Config
  world : World
  processed_urls : List String
  articles : List FeedArticle
  today : String
  collected_at : String

/-- The accumulators of the item loop of `main` (main.py lines 62-105),
plus the list of links for which `analyze_article` was invoked
(an item reaches the summarizer exactly when it passes the content
check). -/
structure ItemsResult where
  analyzed : List String
  saved_calls : List ArticleRow
  article_ids : List String
  processed_articles : List ProcessedArticle
deriving DecidableEq

/-- One iteration of the item loop (main.py lines 66-105), adding article
`a`'s effects in front of the result `r` of the remaining iterations:
skip when content extraction fails or yields an empty string (`if not
content`), otherwise fetch comments, call `analyze_article`
unconditionally, call `save_article` with whatever `analysis` holds, and
extend `article_ids`/`processed_articles` only when an id came back. -/
def processItem (w : World) (apiKey : Option String) (user_id collected_at : String)
    (a : FeedArticle) (r : ItemsResult) : ItemsResult :=
  match w.clean_html_content a.link with
  | none => r
  | some content =>
    if content.isEmpty then r
    else
      match save_article w.insertArticle user_id a.title a.link a.comments_link
          (some content)
          (analyze_article apiKey (w.generate a.title) content
            (w.fetch_hn_comments a.comments_link) a.title)
          a.published collected_at with
      | some aid =>
        { analyzed := a.link :: r.analyzed,
          saved_calls := articleRowOf user_id a.title a.link (some content)
            (analyze_article apiKey (w.generate a.title) content
              (w.fetch_hn_comments a.comments_link) a.title) a.published collected_at
            :: r.saved_calls,
          article_ids := aid :: r.article_ids,
          processed_articles :=
            { title := a.title, url := a.link, comments_url := a.comments_link,
              analysis := analyze_article apiKey (w.generate a.title) content
                (w.fetch_hn_comments a.comments_link) a.title }
            :: r.processed_articles }
      | none =>
        { analyzed := a.link :: r.analyzed,
          saved_calls := articleRowOf user_id a.title a.link (some content)
            (analyze_article apiKey (w.generate a.title) content
              (w.fetch_hn_comments a.comments_link) a.title) a.published collected_at
            :: r.saved_calls,
          article_ids := r.article_ids,
          processed_articles := r.processed_articles }

/-- The whole item loop, preserving feed order. -/
def runItems (w : World) (apiKey : Option String) (user_id collected_at : String) :
    List FeedArticle → ItemsResult
  | [] => ⟨[], [], [], []⟩
  | a :: rest => processItem w apiKey user_id collected_at a
      (runItems w apiKey user_id collected_at rest)

/-- The dedup filter of main.py line 53:
`[a for a in articles if a["link"] not in processed_urls]`. -/
def new_articles_of (inp : RunInput) : List FeedArticle :=
  inp.articles.filter (fun a => !(inp.processed_urls.contains a.link))

/-- The item-loop result of a run (main.py lines 46, 53, 62-105). -/
def rItems (inp : RunInput) : ItemsResult :=
  runItems inp.world inp.cfg.gemini_api_key (inp.cfg.user_id_env.getD "")
    inp.collected_at (new_articles_of inp)

/-- Observable outcome of one run of `main`. `exit_code = some 1` is the
`sys.exit(1)` taken when `get_supabase_client`/`get_user_id` raise
`ValueError`; `exit_code = none` means `main` returned normally (process
status 0); `crashed = true` records an uncaught `TypeError` from
`build_digest_summary`, which terminates the process with a traceback. -/
structure RunResult where
  exit_code : Option Nat
  crashed : Bool
  analyzed : List String
  saved_calls : List ArticleRow
  article_ids : List String
  processed_articles : List ProcessedArticle
  digest : Option DigestCall
deriving DecidableEq

/-- Model of `main` (main.py lines 33-118). Missing Supabase URL, service
key or USER_ID aborts with exit status 1 before any fetch or item work
(lines 37-43); `GEMINI_API_KEY` is never checked here. After the loop,
`save_digest` is invoked once, with today's date, exactly when
`processed_articles` is nonempty. -/
def main_run (inp : RunInput) : RunResult :=
  if inp.cfg.supabase_url.isNone || inp.cfg.supabase_service_role_key.isNone
      || inp.cfg.user_id_env.isNone then
    ⟨some 1, false, [], [], [], [], none⟩
  else if (rItems inp).processed_articles.isEmpty then
    ⟨none, false, (rItems inp).analyzed, (rItems inp).saved_calls,
      (rItems inp).article_ids, (rItems inp).processed_articles, none⟩
  else
    match build_digest_summary (rItems inp).processed_articles with
    | some s =>
      ⟨none, false, (rItems inp).analyzed, (rItems inp).saved_calls,
        (rItems inp).article_ids, (rItems inp).processed_articles,
        some ⟨inp.today, s, (rItems inp).article_ids⟩⟩
    | none =>
      ⟨none, true, (rItems inp).analyzed, (rItems inp).saved_calls,
        (rItems inp).article_ids, (rItems inp).processed_articles, none⟩

/-! ### Byte length, for the content-truncation bound -/

/-- Number of bytes of the UTF-8 encoding of a character. -/
def charUtf8Bytes (c : Char) : Nat :=
  if c.val < 128 then 1 else if c.val < 2048 then 2 else if c.val < 65536 then 3 else 4

/-- Number of bytes of the UTF-8 encoding of a character list. -/
def utf8Len (l : List Char) : Nat := (l.map charUtf8Bytes).sum

/-! ### Concrete fixtures used by witnesses and counterexamples -/

/-- A world where every stage succeeds and the model emits a tag line. -/
def okWorld : World :=
  { clean_html_content := fun _ => some ['x'],
    fetch_hn_comments := fun _ => [],
    generate := fun _ _ => GeminiOutcome.success "Great. Tags: [rust, wasm]",
    insertArticle := fun _ => some "id1" }

/-- One feed article. -/
def okArticle : FeedArticle :=
  { id := "a1", title := "T1", link := "http://a", comments_link := "http://c",
    published := some "2020-01-01T00:00:00Z" }

/-- A fully-configured run over one article in which everything succeeds. -/
def okInput : RunInput :=
  { cfg := { gemini_api_key := some "gk", supabase_url := some "su",
             supabase_service_role_key := some "sk", user_id_env := some "uid" },
    world := okWorld, processed_urls := [], articles := [okArticle],
    today := "2024-03-05", collected_at := "2024-03-05T12:00:00Z" }

/-- The same run with `GEMINI_API_KEY` absent. -/
def noKeyInput : RunInput :=
  { okInput with cfg := { okInput.cfg with gemini_api_key := none } }

/-- A run with the Supabase URL absent. -/
def badCfgInput : RunInput :=
  { okInput with cfg := { okInput.cfg with supabase_url := none } }

/-- A world whose summarizer fails terminally (non-retryable error) while
the store insert succeeds. -/
def failWorld : World :=
  { okWorld with generate := fun _ _ => GeminiOutcome.otherError }

/-- The run exhibiting the summarization-failure path of main.py. -/
def failAnalysisInput : RunInput := { okInput with world := failWorld }

/-- A world in which content extraction fails for one specific URL. -/
def mixWorld : World :=
  { okWorld with clean_html_content := fun u => if u = "http://bad" then none else some ['x'] }

/-- A second feed article whose content extraction fails. -/
def badArticle : FeedArticle :=
  { id := "a2", title := "T2", link := "http://bad", comments_link := "http://cb",
    published := none }

/-- A run over a failing and a succeeding article. -/
def mixInput : RunInput :=
  { okInput with world := mixWorld, articles := [badArticle, okArticle] }

/-- Fallback row used only to name the head of a saved-calls list. -/
def emptyRow : ArticleRow :=
  { user_id := "", title := "", url := "", source := "", content := none,
    summary := none, tags := [], published_at := none, collected_at := "", read := false }

/-- The row stored by the successful `okInput` run. -/
def okRow : ArticleRow := (main_run okInput).saved_calls.headD emptyRow

/-- The digest call made by the successful `okInput` run. -/
def okDigest : DigestCall := ((main_run okInput).digest).getD ⟨"", "", []⟩

/-! ### Theorems: rate pacing (C4) -/

/-- Waiting always ends at or after the shared timestamp plus the floor. -/
theorem wait_for_rate_limit_lb (last now : ℚ) :
    last + MIN_DELAY_BETWEEN_REQUESTS ≤ wait_for_rate_limit last now := by
  unfold wait_for_rate_limit
  split <;> linarith

/-- Consecutive call instants are separated by at least the pacing floor. -/
theorem callTimes_chain (arrivals : List ℚ) : ∀ last : ℚ,
    List.Chain' (fun x y => x + MIN_DELAY_BETWEEN_REQUESTS ≤ y) (callTimes last arrivals) := by
  induction arrivals with
  | nil => intro last; simp [callTimes]
  | cons a rest ih =>
    intro last
    rw [callTimes, List.chain'_cons']
    refine ⟨?_, ih _⟩
    intro h hh
    cases rest with
    | nil => simp [callTimes] at hh
    | cons b r2 =>
      rw [callTimes] at hh
      simp only [List.head?_cons, Option.mem_def, Option.some.injEq] at hh
      rw [← hh]
      exact wait_for_rate_limit_lb _ _

/-- Claim C4: for every sequence of external summarizer calls in one
process, the span between consecutive call instants is at least
`60 / REQUESTS_PER_MINUTE` seconds — 6 seconds with the default of 10
requests per minute — enforced by `_wait_for_rate_limit` sleeping before
each call based on the shared last-call timestamp. -/
theorem summarizer_pacing_floor :
    MIN_DELAY_BETWEEN_REQUESTS = 6 ∧
    ∀ (last : ℚ) (arrivals : List ℚ),
      List.Chain' (fun x y => x + MIN_DELAY_BETWEEN_REQUESTS ≤ y) (callTimes last arrivals) :=
  ⟨by norm_num [MIN_DELAY_BETWEEN_REQUESTS, REQUESTS_PER_MINUTE],
   fun last arrivals => callTimes_chain arrivals last⟩

/-! ### Theorems: retry schedule (C5) -/

/-- Claim C5: when every attempt fails with a quota-exceeded or
rate-limited error, `_call_gemini_with_retry` makes exactly `MAX_RETRIES`
(3) attempts, sleeping the doubling backoff sequence 10s then 20s between
them, after which the retryable failure propagates; any other failure
class propagates immediately after a single attempt with no backoff
sleep. -/
theorem retry_attempt_and_backoff_schedule :
    (∀ generate : Nat → GeminiOutcome,
      (∀ a, a < MAX_RETRIES → generate a = GeminiOutcome.resourceExhausted ∨
          generate a = GeminiOutcome.tooManyRequests) →
      (callGeminiWithRetry generate).2.1 = 3 ∧
      (callGeminiWithRetry generate).2.2 = [10, 20] ∧
      ((callGeminiWithRetry generate).1 = RetryOutcome.raisedResourceExhausted ∨
        (callGeminiWithRetry generate).1 = RetryOutcome.raisedTooManyRequests)) ∧
    (∀ generate : Nat → GeminiOutcome, generate 0 = GeminiOutcome.otherError →
      callGeminiWithRetry generate = (RetryOutcome.raisedOther, 1, [])) := by
  constructor
  · intro g hall
    rcases hall 0 (by decide) with h0 | h0 <;> rcases hall 1 (by decide) with h1 | h1 <;>
      rcases hall 2 (by decide) with h2 | h2 <;>
        simp [callGeminiWithRetry, retryFrom, h0, h1, h2, MAX_RETRIES, INITIAL_BACKOFF]
  · intro g h0
    simp [callGeminiWithRetry, retryFrom, h0, MAX_RETRIES]

/-- Witness for C5 at two concrete outcome schedules. -/
theorem retry_attempt_and_backoff_schedule_witness :
    ((callGeminiWithRetry (fun _ => GeminiOutcome.resourceExhausted)).2.1 = 3 ∧
      (callGeminiWithRetry (fun _ => GeminiOutcome.resourceExhausted)).2.2 = [10, 20] ∧
      ((callGeminiWithRetry (fun _ => GeminiOutcome.resourceExhausted)).1 =
          RetryOutcome.raisedResourceExhausted ∨
        (callGeminiWithRetry (fun _ => GeminiOutcome.resourceExhausted)).1 =
          RetryOutcome.raisedTooManyRequests)) ∧
    callGeminiWithRetry (fun _ => GeminiOutcome.otherError) =
      (RetryOutcome.raisedOther, 1, []) :=
  ⟨retry_attempt_and_backoff_schedule.1 _ (fun a _ => Or.inl rfl),
   retry_attempt_and_backoff_schedule.2 _ rfl⟩

/-! ### Theorems: content truncation byte bound fails (C9 counterexample) -/

/-- Counterexample to the byte reading of Claim C9: `content[:50000]`
truncates to 50000 code points, not 50000 bytes. A content of 50001
copies of a two-byte character is stored as 50000 characters occupying
100000 bytes, exceeding the claimed 50000-byte ceiling. -/
theorem content_truncation_not_byte_bounded :
    50000 < utf8Len ((articleRowOf "u" "T" "http://a"
      (some (List.replicate 50001 'é')) none none "now").content.getD []) := by
  have hb : charUtf8Bytes 'é' = 2 := by decide
  have hne : (List.replicate 50001 'é').isEmpty = false := by
    rw [Bool.eq_false_iff]
    intro h
    have h0 := List.isEmpty_iff.mp h
    have h2 := congrArg List.length h0
    rw [List.length_replicate, List.length_nil] at h2
    exact absurd h2 (by norm_num)
  have h1 : truncated_content (some (List.replicate 50001 'é'))
      = some (List.replicate 50000 'é') := by
    rw [truncated_content]
    rw [hne]
    simp only [Bool.false_eq_true, if_false, List.take_replicate]
    rw [Nat.min_eq_left (by norm_num)]
  rw [show (articleRowOf "u" "T" "http://a" (some (List.replicate 50001 'é'))
      none none "now").content = truncated_content (some (List.replicate 50001 'é')) from rfl]
  rw [h1, Option.getD_some, utf8Len, List.map_replicate, hb, List.sum_replicate,
    smul_eq_mul]
  norm_num

/-! ### Theorems: idempotent digest merge (C3) -/

/-- A digest row whose stored bounds are the computed bounds for `date`
satisfies the overlap query of `save_digest` for that date. -/
theorem digestMatches_construct (i uid date s : String) (ids kt : List String) :
    digestMatches uid (period_start_of date) (period_end_of date)
      ⟨i, uid, period_start_of date, period_end_of date, s, ids, kt⟩ = true := by
  simp [digestMatches, strLe]

/-- Computation of `save_digest` on a one-row table whose row matches. -/
theorem save_digest_singleton (d : Digest) (nid uid date s : String)
    (ids : List String) (kt : Option (List String))
    (hm : digestMatches uid (period_start_of date) (period_end_of date) d = true) :
    save_digest [d] nid uid date s ids kt =
      ([{ d with
          summary := s,
          article_ids := (d.article_ids ++ ids).dedup,
          key_topics := kt.getD [] }], true) := by
  simp [save_digest, List.find?_cons_of_pos _ hm]

/-- Claim C3: for every existing digest for the period and every pair of
new article id lists with an overlap, invoking `save_digest` twice in the
same run leaves a single digest whose `article_ids` has no duplicates and
whose elements are exactly the union of the previously stored ids and the
newly passed ids (set-union merge, not list-append). -/
theorem save_digest_double_merge_is_set_union
    (did uid date dsum nid1 nid2 s1 s2 : String)
    (dids ids1 ids2 dkt : List String) (kt1 kt2 : Option (List String))
    (hov : ∃ x, x ∈ ids1 ∧ x ∈ ids2) :
    ∃ dfinal : Digest,
      save_digest_twice
          [⟨did, uid, period_start_of date, period_end_of date, dsum, dids, dkt⟩]
          nid1 nid2 uid date s1 s2 ids1 ids2 kt1 kt2 = [dfinal] ∧
      dfinal.article_ids.Nodup ∧
      ∀ x, x ∈ dfinal.article_ids ↔ (x ∈ dids ∨ x ∈ ids1 ∨ x ∈ ids2) := by
  rw [save_digest_twice,
    save_digest_singleton _ _ _ _ _ _ _ (digestMatches_construct did uid date dsum dids dkt)]
  rw [save_digest_singleton _ _ _ _ _ _ _ (digestMatches_construct did uid date s1 _ _)]
  refine ⟨_, rfl, List.nodup_dedup _, ?_⟩
  intro x
  simp [List.mem_dedup, List.mem_append, or_assoc]

/-- Witness for C3 at a concrete digest and overlapping id lists. -/
theorem save_digest_double_merge_is_set_union_witness :
    ∃ dfinal : Digest,
      save_digest_twice
          [⟨"d0", "u", period_start_of "2024-03-05", period_end_of "2024-03-05",
            "s", ["x", "y"], []⟩]
          "n1" "n2" "u" "2024-03-05" "s1" "s2" ["y", "z"] ["z", "w"] none none = [dfinal] ∧
      dfinal.article_ids.Nodup ∧
      ∀ x, x ∈ dfinal.article_ids ↔ (x ∈ ["x", "y"] ∨ x ∈ ["y", "z"] ∨ x ∈ ["z", "w"]) :=
  save_digest_double_merge_is_set_union "d0" "u" "2024-03-05" "s" "n1" "n2" "s1" "s2"
    ["x", "y"] ["y", "z"] ["z", "w"] [] none none ⟨"z", by decide, by decide⟩

/-! ### Theorems: tag extraction (C7) -/

/-- A successful label match at a position means the first three characters
there lowercase to `t`, `a`, `g`. -/
theorem tryPatAt_some_shape (after : List Char → Option (List Char)) (s g : List Char)
    (h : tryPatAt after s = some g) :
    ∃ t a gg rest, s = t :: a :: gg :: rest ∧
      t.toLower = 't' ∧ a.toLower = 'a' ∧ gg.toLower = 'g' := by
  match s with
  | [] => simp [tryPatAt] at h
  | [t] => simp [tryPatAt] at h
  | [t, a] => simp [tryPatAt] at h
  | t :: a :: gg :: rest =>
    by_cases hc : t.toLower = 't' ∧ a.toLower = 'a' ∧ gg.toLower = 'g'
    · exact ⟨t, a, gg, rest, rfl, hc.1, hc.2.1, hc.2.2⟩
    · simp [tryPatAt, hc] at h

/-- A successful `re.search` of either pattern implies the lowercased
input contains `tag` as a contiguous substring. -/
theorem searchPat_some_has_marker (after : List Char → Option (List Char)) :
    ∀ s g : List Char, searchPat after s = some g →
      ['t', 'a', 'g'] <:+: s.map Char.toLower := by
  intro s
  induction s with
  | nil => intro g h; simp [searchPat] at h
  | cons c rest ih =>
    intro g h
    rw [searchPat] at h
    cases htry : tryPatAt after (c :: rest) with
    | some g2 =>
      obtain ⟨t, a, gg, r2, heq, ht, ha, hg⟩ := tryPatAt_some_shape after _ _ htry
      rw [heq]
      exact ⟨[], r2.map Char.toLower, by simp [ht, ha, hg]⟩
    | none =>
      rw [htry] at h
      rw [List.map_cons]
      exact (ih g h).trans (List.suffix_cons c.toLower (rest.map Char.toLower)).isInfix

/-- The processed tag list of a captured group never exceeds 5 entries. -/
theorem processTags_length_le (g : List Char) : (processTags g).length ≤ 5 := by
  simp only [processTags, List.length_take]
  exact Nat.min_le_left _ _

/-- Every processed tag has at least two characters. -/
theorem processTags_mem_length (g t : List Char) (h : t ∈ processTags g) :
    2 ≤ t.length := by
  have h1 := List.mem_of_mem_take h
  have h2 := (List.mem_filter.mp h1).2
  simp at h2
  omega

/-- The second-pattern fallback also obeys the cap. -/
theorem extractSecondPattern_length_le (s : List Char) :
    (extractSecondPattern s).length ≤ 5 := by
  unfold extractSecondPattern
  cases searchPat matchAfterLabel2 s with
  | some g => exact processTags_length_le g
  | none => simp

/-- Every tag from the second-pattern fallback has at least two characters. -/
theorem extractSecondPattern_mem_length (s t : List Char)
    (h : t ∈ extractSecondPattern s) : 2 ≤ t.length := by
  unfold extractSecondPattern at h
  cases hs : searchPat matchAfterLabel2 s with
  | some g => rw [hs] at h; exact processTags_mem_length g t h
  | none => rw [hs] at h; simp at h

/-- Claim C7: tag extraction finds the case-insensitive `Tags:` marker
with optional brackets, splits the capture on commas, strips whitespace
and quotes, drops empty and single-character tokens and caps the result
at five tags; the concrete input containing `Tags: [rust, wasm,
compilers]` yields exactly those three tags, and an input whose lowercase
text does not even contain `tag` yields the empty list (never an
error). -/
theorem tag_extraction_spec :
    extract_tags_from_analysis ("...Tags: [rust, wasm, compilers]...".data) =
      ["rust".data, "wasm".data, "compilers".data] ∧
    (∀ s : List Char, (extract_tags_from_analysis s).length ≤ 5) ∧
    (∀ s t : List Char, t ∈ extract_tags_from_analysis s → 2 ≤ t.length) ∧
    (∀ s : List Char, ¬ (['t', 'a', 'g'] <:+: s.map Char.toLower) →
      extract_tags_from_analysis s = []) := by
  refine ⟨by decide, ?_, ?_, ?_⟩
  · intro s
    unfold extract_tags_from_analysis
    split
    · simp
    · cases searchPat matchAfterLabel1 s with
      | some g =>
        show (if (processTags g).isEmpty then extractSecondPattern s
          else processTags g).length ≤ 5
        by_cases hp : (processTags g).isEmpty
        · rw [if_pos hp]; exact extractSecondPattern_length_le s
        · rw [if_neg hp]; exact processTags_length_le g
      | none => exact extractSecondPattern_length_le s
  · intro s t h
    unfold extract_tags_from_analysis at h
    split at h
    · simp at h
    · cases hs : searchPat matchAfterLabel1 s with
      | some g =>
        rw [hs] at h
        have h2 : t ∈ (if (processTags g).isEmpty then extractSecondPattern s
            else processTags g) := h
        by_cases hp : (processTags g).isEmpty
        · rw [if_pos hp] at h2; exact extractSecondPattern_mem_length s t h2
        · rw [if_neg hp] at h2; exact processTags_mem_length g t h2
      | none =>
        rw [hs] at h
        exact extractSecondPattern_mem_length s t h
  · intro s hno
    unfold extract_tags_from_analysis
    split
    · rfl
    · cases hs : searchPat matchAfterLabel1 s with
      | some g => exact absurd (searchPat_some_has_marker _ s g hs) hno
      | none =>
        show extractSecondPattern s = []
        unfold extractSecondPattern
        cases h2 : searchPat matchAfterLabel2 s with
        | some g => exact absurd (searchPat_some_has_marker _ s g h2) hno
        | none => rfl

/-- Witness for C7: a membership instance on the concrete marker input and
the empty result on a markerless input. -/
theorem tag_extraction_spec_witness :
    2 ≤ ("rust".data).length ∧ extract_tags_from_analysis ("hello world".data) = [] :=
  ⟨tag_extraction_spec.2.2.1 ("...Tags: [rust, wasm, compilers]...".data) ("rust".data)
      (by decide),
   tag_extraction_spec.2.2.2 ("hello world".data) (by decide)⟩

/-! ### Theorems: one step of the item loop -/

/-- Case analysis of one item-loop iteration: either the item is skipped
(content extraction failed or returned an empty string) and the
accumulators are untouched, or the item was analyzed and `save_article`
was called with a row whose fields are fixed by the item, and the
id/processed accumulators grew exactly when the insert succeeded. -/
theorem processItem_cases (w : World) (k : Option String) (u ca : String)
    (a : FeedArticle) (r : ItemsResult) :
    (processItem w k u ca a r = r ∧
      (w.clean_html_content a.link = none ∨ w.clean_html_content a.link = some [])) ∨
    ∃ content analysis row,
      w.clean_html_content a.link = some content ∧ content ≠ [] ∧
      analysis = analyze_article k (w.generate a.title) content
        (w.fetch_hn_comments a.comments_link) a.title ∧
      row = articleRowOf u a.title a.link (some content) analysis a.published ca ∧
      row.url = a.link ∧ row.tags = [] ∧ row.summary = analysis ∧
      (∀ c, row.content = some c → c.length ≤ 50000) ∧
      (processItem w k u ca a r).analyzed = a.link :: r.analyzed ∧
      (processItem w k u ca a r).saved_calls = row :: r.saved_calls ∧
      ((∃ aid, w.insertArticle row = some aid ∧
          (processItem w k u ca a r).article_ids = aid :: r.article_ids ∧
          (processItem w k u ca a r).processed_articles =
            ⟨a.title, a.link, a.comments_link, analysis⟩ :: r.processed_articles) ∨
        (w.insertArticle row = none ∧
          (processItem w k u ca a r).article_ids = r.article_ids ∧
          (processItem w k u ca a r).processed_articles = r.processed_articles)) := by
  cases hcl : w.clean_html_content a.link with
  | none => exact Or.inl ⟨by simp [processItem, hcl], Or.inl rfl⟩
  | some content =>
    by_cases hce : content.isEmpty
    · have hc0 : content = [] := by simpa [List.isEmpty_iff] using hce
      exact Or.inl ⟨by simp [processItem, hcl, hce], Or.inr (by rw [hc0])⟩
    · have hcne : content ≠ [] := by simpa [List.isEmpty_iff] using hce
      right
      refine ⟨content,
        analyze_article k (w.generate a.title) content
          (w.fetch_hn_comments a.comments_link) a.title,
        articleRowOf u a.title a.link (some content)
          (analyze_article k (w.generate a.title) content
            (w.fetch_hn_comments a.comments_link) a.title) a.published ca,
        rfl, hcne, rfl, rfl, rfl, rfl, rfl, ?_, ?_, ?_, ?_⟩
      · intro c hc
        have hc2 : truncated_content (some content) = some c := hc
        rw [truncated_content] at hc2
        rw [if_neg (by simp [hce])] at hc2
        cases hc2
        simp [List.length_take]
      · cases hins : w.insertArticle (articleRowOf u a.title a.link (some content)
            (analyze_article k (w.generate a.title) content
              (w.fetch_hn_comments a.comments_link) a.title) a.published ca) with
        | some aid => simp [processItem, hcl, hce, save_article, hins]
        | none => simp [processItem, hcl, hce, save_article, hins]
      · cases hins : w.insertArticle (articleRowOf u a.title a.link (some content)
            (analyze_article k (w.generate a.title) content
              (w.fetch_hn_comments a.comments_link) a.title) a.published ca) with
        | some aid => simp [processItem, hcl, hce, save_article, hins]
        | none => simp [processItem, hcl, hce, save_article, hins]
      · cases hins : w.insertArticle (articleRowOf u a.title a.link (some content)
            (analyze_article k (w.generate a.title) content
              (w.fetch_hn_comments a.comments_link) a.title) a.published ca) with
        | some aid =>
          exact Or.inl ⟨aid, rfl, by simp [processItem, hcl, hce, save_article, hins],
            by simp [processItem, hcl, hce, save_article, hins]⟩
        | none =>
          exact Or.inr ⟨rfl, by simp [processItem, hcl, hce, save_article, hins],
            by simp [processItem, hcl, hce, save_article, hins]⟩

/-! ### Theorems: invariants of the whole item loop -/

/-- Every row handed to the article insert has an empty `tags` list. -/
theorem runItems_tags (w : World) (k : Option String) (u ca : String) :
    ∀ items : List FeedArticle, ∀ row ∈ (runItems w k u ca items).saved_calls,
      row.tags = [] := by
  intro items
  induction items with
  | nil => intro row h; simp [runItems] at h
  | cons a rest ih =>
    intro row h
    rw [runItems] at h
    rcases processItem_cases w k u ca a (runItems w k u ca rest) with
      ⟨heq, _⟩ | ⟨c, an, rw0, hcl, hne, han, hrow, hurl, htags, hsum, hcb, hanl, hsv, hins⟩
    · rw [heq] at h; exact ih row h
    · rw [hsv] at h
      rcases List.mem_cons.mp h with h1 | h1
      · rw [h1]; exact htags
      · exact ih row h1

/-- Every row handed to the article insert stores at most 50000 characters
of content. -/
theorem runItems_content_bound (w : World) (k : Option String) (u ca : String) :
    ∀ items : List FeedArticle, ∀ row ∈ (runItems w k u ca items).saved_calls,
      ∀ c, row.content = some c → c.length ≤ 50000 := by
  intro items
  induction items with
  | nil => intro row h; simp [runItems] at h
  | cons a rest ih =>
    intro row h
    rw [runItems] at h
    rcases processItem_cases w k u ca a (runItems w k u ca rest) with
      ⟨heq, _⟩ | ⟨c, an, rw0, hcl, hne, han, hrow, hurl, htags, hsum, hcb, hanl, hsv, hins⟩
    · rw [heq] at h; exact ih row h
    · rw [hsv] at h
      rcases List.mem_cons.mp h with h1 | h1
      · rw [h1]; exact hcb
      · exact ih row h1

/-- Every id accumulated for the digest came from a successful insert of
one of the rows passed to the store. -/
theorem runItems_ids_from_saved (w : World) (k : Option String) (u ca : String) :
    ∀ items : List FeedArticle, ∀ idv ∈ (runItems w k u ca items).article_ids,
      ∃ row, row ∈ (runItems w k u ca items).saved_calls ∧
        w.insertArticle row = some idv := by
  intro items
  induction items with
  | nil => intro idv h; simp [runItems] at h
  | cons a rest ih =>
    intro idv h
    rw [runItems] at h ⊢
    rcases processItem_cases w k u ca a (runItems w k u ca rest) with
      ⟨heq, _⟩ | ⟨c, an, rw0, hcl, hne, han, hrow, hurl, htags, hsum, hcb, hanl, hsv, hins⟩
    · rw [heq] at h ⊢
      exact ih idv h
    · rw [hsv]
      rcases hins with ⟨aid, hia, hids, _⟩ | ⟨hia, hids, _⟩
      · rw [hids] at h
        rcases List.mem_cons.mp h with h1 | h1
        · exact ⟨rw0, List.mem_cons_self _ _, by rw [hia, h1]⟩
        · obtain ⟨row, hm, hr⟩ := ih idv h1
          exact ⟨row, List.mem_cons_of_mem _ hm, hr⟩
      · rw [hids] at h
        obtain ⟨row, hm, hr⟩ := ih idv h
        exact ⟨row, List.mem_cons_of_mem _ hm, hr⟩

/-- A link whose content extraction fails is never analyzed and never
appears as the url of a stored row. -/
theorem runItems_skip (w : World) (k : Option String) (u ca l : String)
    (hnl : w.clean_html_content l = none) :
    ∀ items : List FeedArticle, l ∉ (runItems w k u ca items).analyzed ∧
      ∀ row ∈ (runItems w k u ca items).saved_calls, row.url ≠ l := by
  intro items
  induction items with
  | nil => constructor <;> simp [runItems]
  | cons a rest ih =>
    rw [runItems]
    rcases processItem_cases w k u ca a (runItems w k u ca rest) with
      ⟨heq, _⟩ | ⟨c, an, rw0, hcl, hne, han, hrow, hurl, htags, hsum, hcb, hanl, hsv, hins⟩
    · rw [heq]; exact ih
    · have hal : a.link ≠ l := by
        intro he
        rw [he, hnl] at hcl
        cases hcl
      constructor
      · rw [hanl]
        intro hmem
        rcases List.mem_cons.mp hmem with h1 | h1
        · exact hal h1.symm
        · exact ih.1 h1
      · rw [hsv]
        intro row hmem
        rcases List.mem_cons.mp hmem with h1 | h1
        · rw [h1, hurl]; exact hal
        · exact ih.2 row h1

/-- The urls of the stored rows form a subsequence of the processed feed's
links: each item is passed to `save_article` at most once per occurrence,
so a failed insert is not retried within the run. -/
theorem runItems_url_sublist (w : World) (k : Option String) (u ca : String) :
    ∀ items : List FeedArticle,
      ((runItems w k u ca items).saved_calls.map ArticleRow.url).Sublist
        (items.map FeedArticle.link) := by
  intro items
  induction items with
  | nil => simp [runItems]
  | cons a rest ih =>
    rw [runItems, List.map_cons]
    rcases processItem_cases w k u ca a (runItems w k u ca rest) with
      ⟨heq, _⟩ | ⟨c, an, rw0, hcl, hne, han, hrow, hurl, htags, hsum, hcb, hanl, hsv, hins⟩
    · rw [heq]; exact ih.cons _
    · rw [hsv, List.map_cons, hurl]
      exact ih.cons₂ _

/-- Without a Gemini key, every stored row's summary and every processed
entry's analysis is the placeholder error string. -/
theorem runItems_nokey (w : World) (k : Option String) (u ca : String) (hk : k = none) :
    ∀ items : List FeedArticle,
      (∀ row ∈ (runItems w k u ca items).saved_calls,
        row.summary = some geminiErrorMsg) ∧
      (∀ pa ∈ (runItems w k u ca items).processed_articles,
        pa.analysis = some geminiErrorMsg) := by
  intro items
  induction items with
  | nil => constructor <;> simp [runItems]
  | cons a rest ih =>
    rw [runItems]
    rcases processItem_cases w k u ca a (runItems w k u ca rest) with
      ⟨heq, _⟩ | ⟨c, an, rw0, hcl, hne, han, hrow, hurl, htags, hsum, hcb, hanl, hsv, hins⟩
    · rw [heq]; exact ih
    · have hmsg : an = some geminiErrorMsg := by
        rw [han, hk]
        rfl
      constructor
      · rw [hsv]
        intro row hmem
        rcases List.mem_cons.mp hmem with h1 | h1
        · rw [h1, hsum]; exact hmsg
        · exact ih.1 row h1
      · rcases hins with ⟨aid, hia, _, hpr⟩ | ⟨hia, _, hpr⟩
        · rw [hpr]
          intro pa hmem
          rcases List.mem_cons.mp hmem with h1 | h1
          · rw [h1]; exact hmsg
          · exact ih.2 pa h1
        · rw [hpr]; exact ih.2

/-! ### Theorems: run-level structure -/

/-- If every processed entry carries the placeholder analysis, the digest
summary builds without raising. -/
theorem build_digest_summary_some (l : List ProcessedArticle)
    (h : ∀ pa ∈ l, pa.analysis = some geminiErrorMsg) :
    (build_digest_summary l).isSome = true := by
  have hall : l.all (fun a => a.analysis.isSome) = true := by
    rw [List.all_eq_true]
    intro x hx
    rw [h x hx]
    rfl
  rw [build_digest_summary, if_pos hall]
  rfl

/-- Structure of a run: either the Supabase configuration is incomplete
and `main` exits with status 1 before touching any item, or the run's
observables are those of the item loop, the exit is clean, a crash can
only come from `build_digest_summary` returning the `TypeError` sentinel,
and the digest call (if any) carries today's date and the accumulated
ids. -/
theorem main_run_cases (inp : RunInput) :
    ((inp.cfg.supabase_url.isNone || inp.cfg.supabase_service_role_key.isNone
        || inp.cfg.user_id_env.isNone) = true ∧
      main_run inp = ⟨some 1, false, [], [], [], [], none⟩) ∨
    ((inp.cfg.supabase_url.isNone || inp.cfg.supabase_service_role_key.isNone
        || inp.cfg.user_id_env.isNone) = false ∧
      (main_run inp).exit_code = none ∧
      (main_run inp).analyzed = (rItems inp).analyzed ∧
      (main_run inp).saved_calls = (rItems inp).saved_calls ∧
      (main_run inp).article_ids = (rItems inp).article_ids ∧
      ((main_run inp).crashed = true →
        build_digest_summary (rItems inp).processed_articles = none) ∧
      (∀ dc, (main_run inp).digest = some dc →
        dc.date = inp.today ∧ dc.article_ids = (rItems inp).article_ids)) := by
  cases hcond : (inp.cfg.supabase_url.isNone || inp.cfg.supabase_service_role_key.isNone
      || inp.cfg.user_id_env.isNone) with
  | true =>
    left
    refine ⟨rfl, ?_⟩
    rw [main_run, if_pos hcond]
  | false =>
    right
    refine ⟨rfl, ?_⟩
    rw [main_run, if_neg (by rw [hcond]; exact Bool.false_ne_true)]
    by_cases hp : (rItems inp).processed_articles.isEmpty
    · rw [if_pos hp]
      exact ⟨rfl, rfl, rfl, rfl, (by intro h; cases h), (by intro dc h; cases h)⟩
    · rw [if_neg hp]
      cases hb : build_digest_summary (rItems inp).processed_articles with
      | some s =>
        refine ⟨rfl, rfl, rfl, rfl, (by intro h; cases h), ?_⟩
        intro dc h
        cases h
        exact ⟨rfl, rfl⟩
      | none => exact ⟨rfl, rfl, rfl, rfl, fun _ => rfl, (by intro dc h; cases h)⟩

/-! ### Theorems: the ten claims about the pipeline -/

/-- Claim C1 (code bug): at a concrete input where the summarizer fails
terminally (a non-retryable error, so `analyze_article` returns the `None`
sentinel), main.py still calls `save_article` with that sentinel — the
stored row's summary is `none` — and when the insert succeeds the item's
id enters the run's accumulated ids; the run then crashes building the
digest summary out of the `None` analysis. The claimed behaviour (sentinel
never passed to `save_article`, item dropped from the run) does not hold. -/
theorem failed_analysis_is_persisted_not_dropped :
    (main_run failAnalysisInput).saved_calls.map ArticleRow.summary = [none] ∧
    (main_run failAnalysisInput).article_ids = ["id1"] ∧
    (main_run failAnalysisInput).crashed = true ∧
    (main_run failAnalysisInput).digest = none := by
  refine ⟨?_, ?_, ?_, ?_⟩ <;> rfl

/-- Claim C2 counterexample: with `GEMINI_API_KEY` absent but the store
configured, the run does not abort: the item is analyzed, `save_article`
is called with the placeholder error string as the summary, and `main`
returns normally (exit status 0), a digest included. -/
theorem missing_gemini_key_does_not_abort :
    (main_run noKeyInput).exit_code = none ∧
    (main_run noKeyInput).analyzed = ["http://a"] ∧
    (main_run noKeyInput).saved_calls.map ArticleRow.summary = [some geminiErrorMsg] ∧
    ((main_run noKeyInput).digest).isSome = true := by
  refine ⟨?_, ?_, ?_, ?_⟩ <;> rfl

/-- Claim C2 as amended: only a missing Supabase configuration
(SUPABASE_URL, SUPABASE_SERVICE_ROLE_KEY or USER_ID) aborts the run, with
exit status 1 and no per-item processing, persistence or aggregation;
a missing GEMINI_API_KEY does not abort — the run completes with a
success status and every stored row carries the placeholder string
`Error: No GEMINI_API_KEY configured.` as its summary. -/
theorem credential_abort_behavior :
    (∀ inp : RunInput,
      (inp.cfg.supabase_url.isNone || inp.cfg.supabase_service_role_key.isNone
        || inp.cfg.user_id_env.isNone) = true →
      main_run inp = ⟨some 1, false, [], [], [], [], none⟩) ∧
    (∀ inp : RunInput,
      (inp.cfg.supabase_url.isNone || inp.cfg.supabase_service_role_key.isNone
        || inp.cfg.user_id_env.isNone) = false →
      inp.cfg.gemini_api_key = none →
      (main_run inp).exit_code = none ∧ (main_run inp).crashed = false ∧
      ∀ row ∈ (main_run inp).saved_calls, row.summary = some geminiErrorMsg) := by
  constructor
  · intro inp hc
    rw [main_run, if_pos hc]
  · intro inp hc hg
    rcases main_run_cases inp with ⟨hct, _⟩ | ⟨_, hex, _, hsv, _, hcr, _⟩
    · rw [hc] at hct
      cases hct
    · refine ⟨hex, ?_, ?_⟩
      · cases hcrash : (main_run inp).crashed with
        | false => rfl
        | true =>
          have hb := hcr hcrash
          have hs := build_digest_summary_some (rItems inp).processed_articles
            ((runItems_nokey inp.world inp.cfg.gemini_api_key _ _ hg _).2)
          rw [hb] at hs
          cases hs
      · rw [hsv]
        exact (runItems_nokey inp.world inp.cfg.gemini_api_key _ _ hg _).1

/-- Witness for the amended C2 at concrete configurations. -/
theorem credential_abort_behavior_witness :
    main_run badCfgInput = ⟨some 1, false, [], [], [], [], none⟩ ∧
    ((main_run noKeyInput).exit_code = none ∧ (main_run noKeyInput).crashed = false ∧
      ∀ row ∈ (main_run noKeyInput).saved_calls, row.summary = some geminiErrorMsg) :=
  ⟨credential_abort_behavior.1 badCfgInput (by decide),
   credential_abort_behavior.2 noKeyInput (by decide) rfl⟩

/-- Claim C6: `save_digest` computes the period bounds of a calendar-day
key by suffixing midnight and the inclusive 23:59:59 end, and the one
digest call a run makes is keyed by the run date `today` — independent of
every item's `publishedAt` — and aggregates exactly the run's accumulated
article ids. -/
theorem digest_bounds_and_run_date_aggregation :
    period_start_of "2024-03-05" = "2024-03-05T00:00:00Z" ∧
    period_end_of "2024-03-05" = "2024-03-05T23:59:59Z" ∧
    ∀ (inp : RunInput) (dc : DigestCall), (main_run inp).digest = some dc →
      dc.date = inp.today ∧ dc.article_ids = (main_run inp).article_ids := by
  refine ⟨rfl, rfl, ?_⟩
  intro inp dc h
  rcases main_run_cases inp with ⟨_, hf⟩ | ⟨_, _, _, _, hids, _, hdg⟩
  · rw [hf] at h
    cases h
  · obtain ⟨h1, h2⟩ := hdg dc h
    rw [hids]
    exact ⟨h1, h2⟩

/-- Witness for C6 at the successful concrete run. -/
theorem digest_bounds_and_run_date_aggregation_witness :
    okDigest.date = okInput.today ∧
    okDigest.article_ids = (main_run okInput).article_ids :=
  digest_bounds_and_run_date_aggregation.2.2 okInput okDigest (by decide)

/-- Claim C8: a candidate whose content extraction returns `None` is never
handed to the summarizer, no stored row carries its url, and every id in
the run's digest call comes from a stored row with a different url. -/
theorem null_content_skips_item (inp : RunInput) (l : String)
    (hnl : inp.world.clean_html_content l = none) :
    l ∉ (main_run inp).analyzed ∧
    (∀ row ∈ (main_run inp).saved_calls, row.url ≠ l) ∧
    (∀ dc, (main_run inp).digest = some dc → ∀ idv ∈ dc.article_ids,
      ∃ row, row ∈ (main_run inp).saved_calls ∧
        inp.world.insertArticle row = some idv ∧ row.url ≠ l) := by
  rcases main_run_cases inp with ⟨_, hf⟩ | ⟨_, _, hanl, hsv, hids, _, hdg⟩
  · rw [hf]
    refine ⟨by simp, by simp, ?_⟩
    intro dc hdc
    cases hdc
  · refine ⟨?_, ?_, ?_⟩
    · rw [hanl]
      exact (runItems_skip inp.world inp.cfg.gemini_api_key _ _ l hnl _).1
    · rw [hsv]
      exact (runItems_skip inp.world inp.cfg.gemini_api_key _ _ l hnl _).2
    · intro dc hdc idv hm
      obtain ⟨_, hdcids⟩ := hdg dc hdc
      rw [hdcids] at hm
      obtain ⟨row, hrm, hri⟩ :=
        runItems_ids_from_saved inp.world inp.cfg.gemini_api_key _ _ _ idv hm
      refine ⟨row, ?_, hri, ?_⟩
      · rw [hsv]
        exact hrm
      · exact (runItems_skip inp.world inp.cfg.gemini_api_key _ _ l hnl _).2 row hrm

/-- Witness for C8: in the mixed run the failing url is skipped. -/
theorem null_content_skips_item_witness :
    "http://bad" ∉ (main_run mixInput).analyzed :=
  (null_content_skips_item mixInput "http://bad" (by decide)).1

/-- Claim C9 as amended: every stored row's content is truncated to at
most 50000 characters (code points, not bytes — see the counterexample);
every digest id stems from a successful insert, so an item whose insert
failed is excluded from digest aggregation; the stored urls form a
subsequence of the feed's links, so no item is passed to `save_article`
twice in a run; and `save_article` returns `None` exactly when the insert
yields nothing. -/
theorem save_article_truncation_and_failure_exclusion (inp : RunInput) :
    (∀ row ∈ (main_run inp).saved_calls, ∀ c, row.content = some c →
      c.length ≤ 50000) ∧
    (∀ idv ∈ (main_run inp).article_ids, ∃ row, row ∈ (main_run inp).saved_calls ∧
      inp.world.insertArticle row = some idv) ∧
    ((main_run inp).saved_calls.map ArticleRow.url).Sublist
      (inp.articles.map FeedArticle.link) ∧
    (∀ ins uid t url cu c an p ca,
      ins (articleRowOf uid t url c an p ca) = none →
      save_article ins uid t url cu c an p ca = none) := by
  rcases main_run_cases inp with ⟨_, hf⟩ | ⟨_, _, _, hsv, hids, _, _⟩
  · rw [hf]
    refine ⟨by simp, by simp, by simp, ?_⟩
    intro ins uid t url cu c an p ca h
    exact h
  · refine ⟨?_, ?_, ?_, ?_⟩
    · rw [hsv]
      exact runItems_content_bound inp.world inp.cfg.gemini_api_key _ _ _
    · rw [hids, hsv]
      exact runItems_ids_from_saved inp.world inp.cfg.gemini_api_key _ _ _
    · rw [hsv]
      exact (runItems_url_sublist inp.world inp.cfg.gemini_api_key _ _ _).trans
        ((List.filter_sublist _).map _)
    · intro ins uid t url cu c an p ca h
      exact h

/-- Witness for the amended C9 at the successful concrete run. -/
theorem save_article_truncation_and_failure_exclusion_witness :
    (['x'] : List Char).length ≤ 50000 ∧
    save_article (fun _ => none) "u" "t" "url" "cu" none none none "" = none :=
  ⟨(save_article_truncation_and_failure_exclusion okInput).1 okRow (by decide)
      ['x'] (by decide),
   (save_article_truncation_and_failure_exclusion okInput).2.2.2
      (fun _ => none) "u" "t" "url" "cu" none none none "" rfl⟩

/-- Claim C10: every row the pipeline hands to the article store carries
an empty `tags` list, whatever the analysis text contains —
`save_article` hard-codes `tags := []` and no pipeline stage invokes
`extract_tags_from_analysis`. -/
theorem persisted_tags_always_empty (inp : RunInput) :
    ∀ row ∈ (main_run inp).saved_calls, row.tags = [] := by
  rcases main_run_cases inp with ⟨_, hf⟩ | ⟨_, _, _, hsv, _, _, _⟩
  · rw [hf]
    simp
  · rw [hsv]
    exact runItems_tags inp.world inp.cfg.gemini_api_key _ _ _

/-- Witness for C10: the row stored by the successful run (whose analysis
text does contain a parseable tag marker) has empty tags. -/
theorem persisted_tags_always_empty_witness : okRow.tags = [] :=
  persisted_tags_always_empty okInput okRow (by decide)
